import Mathlib

/-!
Shallow embedding of execr (src/execr.ts), a thin convenience layer over process
spawning: argument/option normalization (normalizeArgs), a synchronous runner
(exec), an asynchronous runner (execAsync), and the proxy-based fluent command
wrapper (_wrap / wrap / wrapAsync).  The spawn primitives are modelled as
explicit world functions; a thrown error or a rejected promise is modelled as
Except.error carrying the message string.
-/

namespace Execr

/-- The options record of execr (ExecOpts in execr.ts): failOnError, memoize,
plus pass-through spawn configuration, represented here by maxBuffer and cwd.
A field value of none models the key being absent from the JS object. -/
structure ExecOpts where
  failOnError : Option Bool := none
  memoize : Option Bool := none
  maxBuffer : Option Nat := none
  cwd : Option String := none
deriving DecidableEq

/-- The flexible second parameter of exec/execAsync (MaybeArgs in execr.ts):
an argument list, an options object, or undefined. -/
inductive MaybeArgs where
  | args (l : List String)
  | opts (o : ExecOpts)
  | undef
deriving DecidableEq

/-- The globalDefaultOpts object built inside normalizeArgs (execr.ts lines 39-43). -/
def globalDefaultOpts : ExecOpts :=
  { maxBuffer := some (1024 * 1024 * 10), failOnError := some true, memoize := some false }

/-- The empty options object. -/
def emptyOpts : ExecOpts := {}

/-- JS object-spread merge of two options objects: in a spread, a key present on b
wins over the same key on a. -/
def mergeOpts (a b : ExecOpts) : ExecOpts :=
  { failOnError := b.failOnError <|> a.failOnError,
    memoize := b.memoize <|> a.memoize,
    maxBuffer := b.maxBuffer <|> a.maxBuffer,
    cwd := b.cwd <|> a.cwd }

/-- normalizeArgs (execr.ts lines 38-53): resolves the flexible argument into the
(argument list, merged options) pair.  An options-shaped first positional value is
taken as the call-site options (the separately supplied options are then unused);
an array is filtered of falsy (empty-string) entries; the options are the spread
of global defaults, then the per-wrapped-command defaults, then the call-site
options. -/
def normalizeArgs (maybeArgs : MaybeArgs) (suppliedOptions : Option ExecOpts)
    (defaultOptions : Option ExecOpts) : List String × ExecOpts :=
  let normalizedDefaultOpts := defaultOptions.getD emptyOpts
  let callSiteOpts :=
    match maybeArgs with
    | MaybeArgs.opts o => o
    | _ => suppliedOptions.getD emptyOpts
  let finalOpts := mergeOpts (mergeOpts globalDefaultOpts normalizedDefaultOpts) callSiteOpts
  let finalArgs :=
    match maybeArgs with
    | MaybeArgs.args l => l.filter (fun s => s != "")
    | _ => []
  (finalArgs, finalOpts)

/-- Result shape of the spawnSync primitive: status, signal, stdout and stderr may
each be null (none).  Exit codes reported by the host are nonnegative, hence Nat.
The error field is set on a spawn-level failure; exec never reads it. -/
structure SpawnResult where
  status : Option Nat := none
  signal : Option String := none
  stdout : Option String := none
  stderr : Option String := none
  error : Option String := none
deriving DecidableEq

/-- The status field of a Result: a numeric exit code or a termination signal
name; the surrounding Option models the JS value null. -/
inductive StatusVal where
  | exitCode (code : Int)
  | sigName (s : String)
deriving DecidableEq

/-- The Result record returned by exec and resolved by execAsync. -/
structure ExecResult where
  status : Option StatusVal
  stdout : String
  stderr : String
deriving DecidableEq

/-- Whitespace for the purposes of String.prototype.trim. -/
def isJsWs (c : Char) : Bool :=
  c = ' ' ∨ c = '\t' ∨ c = '\n' ∨ c = '\r' ∨ c.toNat = 11 ∨ c.toNat = 12

/-- JS String.prototype.trim: strip leading and trailing whitespace. -/
def jsTrim (s : String) : String :=
  String.mk (((s.data.dropWhile isJsWs).reverse.dropWhile isJsWs).reverse)

/-- JS template interpolation of a nullable string: null prints as "null". -/
def jsStr : Option String → String
  | none => "null"
  | some s => s

/-- JS template interpolation of a nullable number: null prints as "null". -/
def jsNum : Option Nat → String
  | none => "null"
  | some n => toString n

/-- JS truthiness of a nullable boolean option value. -/
def jsTruthyBool : Option Bool → Bool
  | none => false
  | some b => b

/-- The run-failure test shared by exec (line 115) and the execAsync close handler
(line 83): JS (status > 0 || signal), where a null status compares false and a
signal is truthy when it is a nonempty string. -/
def failCond (st : Option Nat) (sig : Option String) : Bool :=
  (match st with
   | some n => decide (0 < n)
   | none => false) ||
  (match sig with
   | some s => decide (s ≠ "")
   | none => false)

/-- JS (status || signal): the status when truthy (nonzero), otherwise the signal
value as-is; exit code 0 and a null signal collapse to null. -/
def statusOrSignal (st : Option Nat) (sig : Option String) : Option StatusVal :=
  match st with
  | some n => if n ≠ 0 then some (StatusVal.exitCode n) else sig.map StatusVal.sigName
  | none => sig.map StatusVal.sigName

/-- The run-failure message template, identical in exec (line 116) and in the
execAsync close handler (line 84). -/
def failMessage (cmd : String) (endArgs : List String) (st : Option Nat)
    (sig : Option String) (stderrText : String) : String :=
  cmd ++ " " ++ String.intercalate " " endArgs ++ " failed. Status " ++
    jsNum st ++ ", Signal " ++ jsStr sig ++ ".\n" ++ stderrText

/-- The tail of exec (execr.ts lines 115-128) applied to a spawnSync result: the
failure check plus result construction.  A throw is Except.error on the message. -/
def execCore (cmd : String) (endArgs : List String) (execOpts : ExecOpts)
    (result : SpawnResult) : Except String ExecResult :=
  if failCond result.status result.signal && jsTruthyBool execOpts.failOnError then
    Except.error (failMessage cmd endArgs result.status result.signal (jsStr result.stderr))
  else
    Except.ok
      { status := statusOrSignal result.status result.signal,
        stdout := jsTrim (jsStr result.stdout),
        stderr := jsTrim (jsStr result.stderr) }

/-- Key of the lodash memoize cache: the full (cmd, args, options) tuple that
memoizeSpawnSync serializes (execr.ts line 35). -/
abbrev SpawnKey := String × List String × ExecOpts

/-- The process-wide memoization cache of memoizeSpawnSync. -/
abbrev Cache := List (SpawnKey × SpawnResult)

/-- Lookup in the memoize cache. -/
def cacheLookup (c : Cache) (k : SpawnKey) : Option SpawnResult :=
  match c with
  | [] => none
  | (k2, r) :: rest => if k = k2 then some r else cacheLookup rest k

/-- exec (execr.ts lines 105-129).  world stands for the spawn.sync primitive;
the returned Nat counts how many times the underlying primitive was invoked, and
the cache threads the memoizeSpawnSync cache (consulted only when the effective
memoize option is truthy, line 112). -/
def exec (world : String → List String → ExecOpts → SpawnResult) (cache : Cache)
    (cmd : String) (maybeArgs : MaybeArgs) (opts : Option ExecOpts) :
    Cache × Nat × Except String ExecResult :=
  let na := normalizeArgs maybeArgs opts none
  let endArgs := na.1
  let execOpts := na.2
  if jsTruthyBool execOpts.memoize then
    match cacheLookup cache (cmd, endArgs, execOpts) with
    | some r => (cache, 0, execCore cmd endArgs execOpts r)
    | none =>
      let r := world cmd endArgs execOpts
      (((cmd, endArgs, execOpts), r) :: cache, 1, execCore cmd endArgs execOpts r)
  else
    (cache, 1, execCore cmd endArgs execOpts (world cmd endArgs execOpts))

/-- Terminal event of the asynchronously spawned child process: an error event
carrying the stringified error, or a close event carrying exit status/signal and
the accumulated stdout/stderr streams. -/
inductive ProcOutcome where
  | errored (err : String)
  | closed (status : Option Nat) (signal : Option String) (stdout stderr : String)
deriving DecidableEq

/-- execAsync (execr.ts lines 55-103); a rejection is Except.error.  A promise
settles once, so the reject issued in a handler wins over the resolve that the
same handler falls through to.  On an error event the streams captured so far are
discarded: stdout is reset to "" and stderr is the stringified error, trimmed. -/
def execAsync (world : String → List String → ExecOpts → ProcOutcome)
    (cmd : String) (maybeArgs : MaybeArgs) (opts : Option ExecOpts) :
    Except String ExecResult :=
  let na := normalizeArgs maybeArgs opts none
  let endArgs := na.1
  let execOpts := na.2
  match world cmd endArgs execOpts with
  | ProcOutcome.errored err =>
    if jsTruthyBool execOpts.failOnError then
      Except.error (jsTrim (cmd ++ " " ++ String.intercalate " " endArgs ++ " errored.\n" ++ err))
    else
      Except.ok { status := some (StatusVal.exitCode (-1)), stdout := "", stderr := jsTrim err }
  | ProcOutcome.closed st sig sout serr =>
    if failCond st sig && jsTruthyBool execOpts.failOnError then
      Except.error (failMessage cmd endArgs st sig serr)
    else
      Except.ok { status := statusOrSignal st sig, stdout := jsTrim sout, stderr := jsTrim serr }

/-- An untyped JS value sitting on the wrapped callable, as far as the proxy get
trap observes it: a string, a number, or a function member. -/
inductive JsVal where
  | str (s : String)
  | num (n : Int)
  | fnVal
deriving DecidableEq

/-- JS truthiness of such a value. -/
def jsTruthyVal : JsVal → Bool
  | JsVal.str s => decide (s ≠ "")
  | JsVal.num n => decide (n ≠ 0)
  | JsVal.fnVal => true

/-- The string-keyed intrinsic properties of the proxied function object _fn:
its own name (the string "_fn"), its own length (0, since _fn declares only a
rest parameter), prototype, and the members inherited from Function.prototype
and Object.prototype.  Every other string key reads as undefined (none). -/
def fnProps (p : String) : Option JsVal :=
  if p = "name" then some (JsVal.str "_fn")
  else if p = "length" then some (JsVal.num 0)
  else if p = "prototype" ∨ p = "constructor" ∨ p = "call" ∨ p = "apply" ∨
      p = "bind" ∨ p = "toString" ∨ p = "toLocaleString" ∨ p = "valueOf" ∨
      p = "hasOwnProperty" ∨ p = "isPrototypeOf" ∨ p = "propertyIsEnumerable" then
    some JsVal.fnVal
  else none

/-- What a property access on the wrapper hands back: an intrinsic value of the
underlying callable, or the proxy itself for further chaining. -/
inductive GetRet where
  | val (v : JsVal)
  | chained
deriving DecidableEq

/-- The proxy get trap (execr.ts lines 162-174) acting on the wrapper state
(none models args being undefined): a property whose value on the proxied object
is truthy is returned as-is; otherwise the name is pushed onto the pending token
list and the proxy is returned.  Symbol-typed keys, which are also returned
as-is, are outside this string-keyed model. -/
def wrapGet (s : Option (List String)) (p : String) : Option (List String) × GetRet :=
  match fnProps p with
  | some v =>
    if jsTruthyVal v then (s, GetRet.val v)
    else (some ((s.getD []).concat p), GetRet.chained)
  | none => (some ((s.getD []).concat p), GetRet.chained)

/-- The pending tokens an undefined-or-list wrapper state stands for (the
source reinitializes an undefined args to [] before use). -/
def pendingArgs (s : Option (List String)) : List String := s.getD []

/-- The invocation function _fn of the wrapper (execr.ts lines 148-160):
normalizes the call-site arguments and options against the per-wrapped-command
defaults, runs fn on the pending tokens concatenated with the call-site
arguments, and clears the pending state on every exit path (the finally block),
whether fn returns or raises. -/
def wrapInvoke {α : Type} (fn : String → MaybeArgs → Option ExecOpts → α)
    (cmd : String) (defaultOpts : Option ExecOpts) (s : Option (List String))
    (endArgsOrOpts : MaybeArgs) (suppliedOpts : Option ExecOpts) :
    Option (List String) × α :=
  let na := normalizeArgs endArgsOrOpts suppliedOpts defaultOpts
  (none, fn cmd (MaybeArgs.args ((s.getD []) ++ na.1)) (some na.2))

/-- A chain of property accesses folded over the wrapper state. -/
def wrapChain (s : Option (List String)) (props : List String) : Option (List String) :=
  props.foldl (fun st p => (wrapGet st p).1) s

deriving instance DecidableEq for Except

/-- The run-failure message starts with the command name. -/
theorem failMessage_head (cmd : String) (endArgs : List String) (st : Option Nat)
    (sig : Option String) (serr : String) :
    ∃ b, failMessage cmd endArgs st sig serr = cmd ++ b := by
  refine ⟨" " ++ (String.intercalate " " endArgs ++ (" failed. Status " ++
    (jsNum st ++ (", Signal " ++ (jsStr sig ++ (".\n" ++ serr)))))), ?_⟩
  simp [failMessage, String.append_assoc]

/-- The run-failure message ends with the captured stderr text. -/
theorem failMessage_tail (cmd : String) (endArgs : List String) (st : Option Nat)
    (sig : Option String) (serr : String) :
    ∃ a, failMessage cmd endArgs st sig serr = a ++ serr :=
  ⟨cmd ++ " " ++ String.intercalate " " endArgs ++ " failed. Status " ++
    jsNum st ++ ", Signal " ++ jsStr sig ++ ".\n", rfl⟩

/-- Claim C1 (code bug): a successful run (exit status 0, no signal) does not
yield Result status 0.  The JS expression (result.status || result.signal)
treats the exit code 0 as falsy, so both exec and execAsync return a Result
whose status is null, contradicting the declared Result type and the spec. -/
theorem C1_successful_run_status_is_null :
    (exec (fun _ _ _ => { status := some 0, signal := none, stdout := some "ok", stderr := some "" })
        [] "true" (MaybeArgs.args []) none).2.2 =
      Except.ok { status := none, stdout := "ok", stderr := "" } ∧
    execAsync (fun _ _ _ => ProcOutcome.closed (some 0) none "ok" "") "true"
        (MaybeArgs.args []) none =
      Except.ok { status := none, stdout := "ok", stderr := "" } := by
  decide

/-- Claim C2 counterexample: a spawn-level error under the synchronous runner,
with failOnError at its enabled default, neither raises nor forces status -1.
spawnSync reports such an error with null status and signal (and an error field
exec never consults), so exec returns normally with a null status and the
string "null" as both output fields. -/
theorem C2_sync_spawn_error_not_captured :
    (normalizeArgs (MaybeArgs.args []) none none).2.failOnError = some true ∧
    (exec (fun _ _ _ => { error := some "Error: spawn nope ENOENT" }) [] "nope"
        (MaybeArgs.args []) none).2.2 =
      Except.ok { status := none, stdout := "null", stderr := "null" } := by
  decide

/-- Claim C2 amended: only execAsync captures spawn-level errors and forces
status -1: with failOnError truthy it rejects with a message containing the
command, the arguments and the stringified error, otherwise it resolves with
status -1 and that text as stderr.  The synchronous exec performs no
spawn-error handling: a spawnSync result with null status and signal is
returned normally (status null, not -1), regardless of failOnError. -/
theorem C2_spawn_error_capture_async_only
    (aworld : String → List String → ExecOpts → ProcOutcome)
    (world : String → List String → ExecOpts → SpawnResult)
    (cmd : String) (maybeArgs : MaybeArgs) (opts : Option ExecOpts) (err : String)
    (ha : aworld cmd (normalizeArgs maybeArgs opts none).1
        (normalizeArgs maybeArgs opts none).2 = ProcOutcome.errored err)
    (hs : (world cmd (normalizeArgs maybeArgs opts none).1
        (normalizeArgs maybeArgs opts none).2).status = none)
    (hg : (world cmd (normalizeArgs maybeArgs opts none).1
        (normalizeArgs maybeArgs opts none).2).signal = none) :
    (jsTruthyBool (normalizeArgs maybeArgs opts none).2.failOnError = true →
      execAsync aworld cmd maybeArgs opts =
        Except.error (jsTrim (cmd ++ " " ++
          String.intercalate " " (normalizeArgs maybeArgs opts none).1 ++ " errored.\n" ++ err))) ∧
    (jsTruthyBool (normalizeArgs maybeArgs opts none).2.failOnError = false →
      execAsync aworld cmd maybeArgs opts =
        Except.ok { status := some (StatusVal.exitCode (-1)), stdout := "", stderr := jsTrim err }) ∧
    (∃ r, (exec world [] cmd maybeArgs opts).2.2 = Except.ok r ∧ r.status = none) := by
  refine ⟨?_, ?_, ?_⟩
  · intro hfo
    simp only [execAsync, ha, hfo, if_true]
  · intro hfo
    simp only [execAsync, ha, hfo]
    simp
  · simp only [exec, cacheLookup]
    split <;> simp [execCore, failCond, hs, hg, statusOrSignal]

/-- Claim C2 amended, witnessed at a concrete spawn failure of command "nope"
with no arguments and default options. -/
theorem C2_spawn_error_capture_async_only_witness :
    (fun _ _ _ => ProcOutcome.errored "Error: spawn nope ENOENT" :
        String → List String → ExecOpts → ProcOutcome) "nope"
      (normalizeArgs (MaybeArgs.args []) none none).1
      (normalizeArgs (MaybeArgs.args []) none none).2 =
        ProcOutcome.errored "Error: spawn nope ENOENT" ∧
    ((fun _ _ _ => { error := some "ENOENT" } :
        String → List String → ExecOpts → SpawnResult) "nope"
      (normalizeArgs (MaybeArgs.args []) none none).1
      (normalizeArgs (MaybeArgs.args []) none none).2).status = none ∧
    ((jsTruthyBool (normalizeArgs (MaybeArgs.args []) none none).2.failOnError = true →
      execAsync (fun _ _ _ => ProcOutcome.errored "Error: spawn nope ENOENT") "nope"
          (MaybeArgs.args []) none =
        Except.error (jsTrim ("nope" ++ " " ++
          String.intercalate " " (normalizeArgs (MaybeArgs.args []) none none).1 ++
          " errored.\n" ++ "Error: spawn nope ENOENT"))) ∧
    (jsTruthyBool (normalizeArgs (MaybeArgs.args []) none none).2.failOnError = false →
      execAsync (fun _ _ _ => ProcOutcome.errored "Error: spawn nope ENOENT") "nope"
          (MaybeArgs.args []) none =
        Except.ok { status := some (StatusVal.exitCode (-1)), stdout := "",
                    stderr := jsTrim "Error: spawn nope ENOENT" }) ∧
    (∃ r, (exec (fun _ _ _ => { error := some "ENOENT" }) [] "nope"
        (MaybeArgs.args []) none).2.2 = Except.ok r ∧ r.status = none)) :=
  ⟨rfl, rfl,
    C2_spawn_error_capture_async_only
      (fun _ _ _ => ProcOutcome.errored "Error: spawn nope ENOENT")
      (fun _ _ _ => { error := some "ENOENT" })
      "nope" (MaybeArgs.args []) none "Error: spawn nope ENOENT" rfl rfl rfl⟩

/-- Claim C3: a failing command (nonzero exit, no signal) with effective
failOnError false is returned, not thrown: exec yields a normal Result and
execAsync resolves, in both cases with status the process's nonzero exit code. -/
theorem C3_failOnError_false_returns_nonzero_status
    (world : String → List String → ExecOpts → SpawnResult)
    (aworld : String → List String → ExecOpts → ProcOutcome)
    (cmd : String) (maybeArgs : MaybeArgs) (opts : Option ExecOpts)
    (n : Nat) (sout serr : String)
    (hn : n ≠ 0)
    (hfail : (normalizeArgs maybeArgs opts none).2.failOnError = some false)
    (hst : (world cmd (normalizeArgs maybeArgs opts none).1
        (normalizeArgs maybeArgs opts none).2).status = some n)
    (hsig : (world cmd (normalizeArgs maybeArgs opts none).1
        (normalizeArgs maybeArgs opts none).2).signal = none)
    (haw : aworld cmd (normalizeArgs maybeArgs opts none).1
        (normalizeArgs maybeArgs opts none).2 = ProcOutcome.closed (some n) none sout serr) :
    (∃ r, (exec world [] cmd maybeArgs opts).2.2 = Except.ok r ∧
        r.status = some (StatusVal.exitCode n)) ∧
    (∃ r, execAsync aworld cmd maybeArgs opts = Except.ok r ∧
        r.status = some (StatusVal.exitCode n)) := by
  constructor
  · simp only [exec, cacheLookup]
    split <;>
      simp [execCore, failCond, statusOrSignal, hst, hsig, hfail, jsTruthyBool, hn]
  · simp only [execAsync, haw]
    simp [failCond, statusOrSignal, hfail, jsTruthyBool, hn]

/-- Claim C3, witnessed at git push exiting 2 with failOnError false. -/
theorem C3_failOnError_false_returns_nonzero_status_witness :
    (2 : Nat) ≠ 0 ∧
    (normalizeArgs (MaybeArgs.args ["push"]) (some { failOnError := some false })
        none).2.failOnError = some false ∧
    ((∃ r, (exec (fun _ _ _ => { status := some 2, stderr := some "boom" }) [] "git"
        (MaybeArgs.args ["push"]) (some { failOnError := some false })).2.2 = Except.ok r ∧
        r.status = some (StatusVal.exitCode 2)) ∧
    (∃ r, execAsync (fun _ _ _ => ProcOutcome.closed (some 2) none "" "boom") "git"
        (MaybeArgs.args ["push"]) (some { failOnError := some false }) = Except.ok r ∧
        r.status = some (StatusVal.exitCode 2))) :=
  ⟨by decide, by decide,
    C3_failOnError_false_returns_nonzero_status
      (fun _ _ _ => { status := some 2, stderr := some "boom" })
      (fun _ _ _ => ProcOutcome.closed (some 2) none "" "boom")
      "git" (MaybeArgs.args ["push"]) (some { failOnError := some false })
      2 "" "boom" (by decide) (by decide) rfl rfl rfl⟩

/-- Claim C4: a failing command (nonzero exit or signal termination) with
effective failOnError truthy (its default) makes exec throw and execAsync
reject, with a message that contains the command name and the captured stderr
text. -/
theorem C4_failOnError_true_raises_with_cmd_and_stderr
    (world : String → List String → ExecOpts → SpawnResult)
    (aworld : String → List String → ExecOpts → ProcOutcome)
    (cmd : String) (maybeArgs : MaybeArgs) (opts : Option ExecOpts)
    (ast : Option Nat) (asig : Option String) (aout aerr : String)
    (hfail : jsTruthyBool (normalizeArgs maybeArgs opts none).2.failOnError = true)
    (hcond : (∃ k, (world cmd (normalizeArgs maybeArgs opts none).1
          (normalizeArgs maybeArgs opts none).2).status = some k ∧ k ≠ 0) ∨
        (∃ g, (world cmd (normalizeArgs maybeArgs opts none).1
          (normalizeArgs maybeArgs opts none).2).signal = some g ∧ g ≠ ""))
    (haw : aworld cmd (normalizeArgs maybeArgs opts none).1
        (normalizeArgs maybeArgs opts none).2 = ProcOutcome.closed ast asig aout aerr)
    (hacond : (∃ k, ast = some k ∧ k ≠ 0) ∨ (∃ g, asig = some g ∧ g ≠ "")) :
    (∃ msg, (exec world [] cmd maybeArgs opts).2.2 = Except.error msg ∧
        (∃ b, msg = cmd ++ b) ∧
        (∃ a, msg = a ++ jsStr (world cmd (normalizeArgs maybeArgs opts none).1
          (normalizeArgs maybeArgs opts none).2).stderr)) ∧
    (∃ msg, execAsync aworld cmd maybeArgs opts = Except.error msg ∧
        (∃ b, msg = cmd ++ b) ∧ (∃ a, msg = a ++ aerr)) := by
  have hfc : failCond (world cmd (normalizeArgs maybeArgs opts none).1
      (normalizeArgs maybeArgs opts none).2).status
      (world cmd (normalizeArgs maybeArgs opts none).1
      (normalizeArgs maybeArgs opts none).2).signal = true := by
    rcases hcond with ⟨k, hk, hk0⟩ | ⟨g, hg, hg0⟩
    · simp [failCond, hk, Nat.pos_of_ne_zero hk0]
    · simp [failCond, hg, hg0]
  have hfc2 : failCond ast asig = true := by
    rcases hacond with ⟨k, hk, hk0⟩ | ⟨g, hg, hg0⟩
    · simp [failCond, hk, Nat.pos_of_ne_zero hk0]
    · simp [failCond, hg, hg0]
  constructor
  · simp only [exec, cacheLookup]
    split <;>
      · simp only [execCore, hfc, hfail, Bool.and_self, if_true]
        exact ⟨_, rfl, failMessage_head _ _ _ _ _, failMessage_tail _ _ _ _ _⟩
  · simp only [execAsync, haw, hfc2, hfail, Bool.and_self, if_true]
    exact ⟨_, rfl, failMessage_head _ _ _ _ _, failMessage_tail _ _ _ _ _⟩

/-- Claim C4, witnessed at git exiting 1 with stderr "fatal" and default options. -/
theorem C4_failOnError_true_raises_with_cmd_and_stderr_witness :
    jsTruthyBool (normalizeArgs (MaybeArgs.args []) none none).2.failOnError = true ∧
    ((∃ msg, (exec (fun _ _ _ => { status := some 1, stderr := some "fatal" }) [] "git"
        (MaybeArgs.args []) none).2.2 = Except.error msg ∧
        (∃ b, msg = "git" ++ b) ∧ (∃ a, msg = a ++ "fatal")) ∧
    (∃ msg, execAsync (fun _ _ _ => ProcOutcome.closed (some 1) none "" "fatal") "git"
        (MaybeArgs.args []) none = Except.error msg ∧
        (∃ b, msg = "git" ++ b) ∧ (∃ a, msg = a ++ "fatal"))) :=
  ⟨by decide,
    C4_failOnError_true_raises_with_cmd_and_stderr
      (fun _ _ _ => { status := some 1, stderr := some "fatal" })
      (fun _ _ _ => ProcOutcome.closed (some 1) none "" "fatal")
      "git" (MaybeArgs.args []) none (some 1) none "" "fatal"
      (by decide) (Or.inl ⟨1, rfl, by decide⟩) rfl (Or.inl ⟨1, rfl, by decide⟩)⟩

/-- Claim C5: chained property accesses on a wrapped command followed by an
invocation are equivalent to a direct exec call whose argument list is the
chained tokens followed by the call-site arguments: wrap("git").branch() equals
exec("git", ["branch"]), and wrap("az").artifacts.universal.download(["--file",
"x"]) equals exec("az", ["artifacts", "universal", "download", "--file", "x"]),
whatever the spawn primitive and memoization cache contents. -/
theorem C5_chaining_equals_direct_exec
    (world : String → List String → ExecOpts → SpawnResult) (cache : Cache) :
    (wrapInvoke (fun c a o => exec world cache c a o) "git" none
        (wrapChain (some []) ["branch"]) MaybeArgs.undef none).2 =
      exec world cache "git" (MaybeArgs.args ["branch"]) none ∧
    (wrapInvoke (fun c a o => exec world cache c a o) "az" none
        (wrapChain (some []) ["artifacts", "universal", "download"])
        (MaybeArgs.args ["--file", "x"]) none).2 =
      exec world cache "az"
        (MaybeArgs.args ["artifacts", "universal", "download", "--file", "x"]) none := by
  exact ⟨rfl, rfl⟩

/-- Claim C6: after any invocation of the wrapper, whether the run returns or
raises, the pending-argument state is cleared (none, the Idle state): a
subsequent invocation behaves exactly as from a fresh wrapper, and a subsequent
chained property access stages the same pending tokens as from a fresh wrapper. -/
theorem C6_wrapper_state_reset {α : Type} (fn : String → MaybeArgs → Option ExecOpts → α)
    (cmd : String) (dOpts : Option ExecOpts) (s : Option (List String))
    (ea : MaybeArgs) (so : Option ExecOpts) :
    (wrapInvoke fn cmd dOpts s ea so).1 = none ∧
    (∀ ea2 so2, wrapInvoke fn cmd dOpts none ea2 so2 = wrapInvoke fn cmd dOpts (some []) ea2 so2) ∧
    (∀ p, pendingArgs (wrapGet none p).1 = pendingArgs (wrapGet (some []) p).1) := by
  refine ⟨rfl, fun ea2 so2 => rfl, fun p => ?_⟩
  unfold wrapGet
  cases h : fnProps p with
  | none => rfl
  | some v => cases hv : jsTruthyVal v <;> simp [hv, pendingArgs]

/-- Claim C7: the effective options are the three-layer merge: for every key,
the call-site value when present, else the per-wrapped-command default when
present, else the global default (failOnError true, memoize false, maxBuffer
10 MiB, and no global value for pass-through keys such as cwd). -/
theorem C7_three_layer_option_merge (maybeArgs : MaybeArgs)
    (suppliedOpts defaultOpts : Option ExecOpts) :
    let cs := match maybeArgs with
      | MaybeArgs.opts o => o
      | _ => suppliedOpts.getD emptyOpts
    let d := defaultOpts.getD emptyOpts
    let o := (normalizeArgs maybeArgs suppliedOpts defaultOpts).2
    o.failOnError = (cs.failOnError <|> (d.failOnError <|> some true)) ∧
    o.memoize = (cs.memoize <|> (d.memoize <|> some false)) ∧
    o.maxBuffer = (cs.maxBuffer <|> (d.maxBuffer <|> some (1024 * 1024 * 10))) ∧
    o.cwd = (cs.cwd <|> (d.cwd <|> none)) := by
  cases maybeArgs <;> exact ⟨rfl, rfl, rfl, rfl⟩

/-- Claim C10: when the first positional input is an options-shaped object, a
separately supplied trailing options argument is ignored entirely, in exec and
in execAsync alike, and the effective options are the first positional object
layered over the defaults only. -/
theorem C10_trailing_options_ignored
    (world : String → List String → ExecOpts → SpawnResult)
    (aworld : String → List String → ExecOpts → ProcOutcome)
    (cache : Cache) (cmd : String) (o o2 : ExecOpts) :
    exec world cache cmd (MaybeArgs.opts o) (some o2) =
      exec world cache cmd (MaybeArgs.opts o) none ∧
    execAsync aworld cmd (MaybeArgs.opts o) (some o2) =
      execAsync aworld cmd (MaybeArgs.opts o) none ∧
    (normalizeArgs (MaybeArgs.opts o) (some o2) none).2 =
      mergeOpts (mergeOpts globalDefaultOpts emptyOpts) o := by
  exact ⟨rfl, rfl, rfl⟩

/-- Claim C8: with an effective memoize of true, two invocations of the
synchronous runner with the identical command, argument list and options invoke
the underlying spawn primitive exactly once in total: the first call spawns
(and caches), the second spawns zero times and returns the cached outcome. -/
theorem C8_memoize_spawns_exactly_once
    (world : String → List String → ExecOpts → SpawnResult)
    (cmd : String) (maybeArgs : MaybeArgs) (opts : Option ExecOpts)
    (h : (normalizeArgs maybeArgs opts none).2.memoize = some true) :
    (exec world [] cmd maybeArgs opts).2.1 = 1 ∧
    (exec world (exec world [] cmd maybeArgs opts).1 cmd maybeArgs opts).2.1 = 0 ∧
    (exec world (exec world [] cmd maybeArgs opts).1 cmd maybeArgs opts).2.2 =
      (exec world [] cmd maybeArgs opts).2.2 := by
  simp [exec, cacheLookup, h, jsTruthyBool]

/-- Claim C8, witnessed at git ls-files with memoize true. -/
theorem C8_memoize_spawns_exactly_once_witness :
    (normalizeArgs (MaybeArgs.opts { memoize := some true }) none none).2.memoize = some true ∧
    ((exec (fun _ _ _ => { stdout := some "a.txt" }) [] "git"
        (MaybeArgs.opts { memoize := some true }) none).2.1 = 1 ∧
    (exec (fun _ _ _ => { stdout := some "a.txt" })
        (exec (fun _ _ _ => { stdout := some "a.txt" }) [] "git"
          (MaybeArgs.opts { memoize := some true }) none).1 "git"
        (MaybeArgs.opts { memoize := some true }) none).2.1 = 0 ∧
    (exec (fun _ _ _ => { stdout := some "a.txt" })
        (exec (fun _ _ _ => { stdout := some "a.txt" }) [] "git"
          (MaybeArgs.opts { memoize := some true }) none).1 "git"
        (MaybeArgs.opts { memoize := some true }) none).2.2 =
      (exec (fun _ _ _ => { stdout := some "a.txt" }) [] "git"
        (MaybeArgs.opts { memoize := some true }) none).2.2) :=
  ⟨by decide,
    C8_memoize_spawns_exactly_once (fun _ _ _ => { stdout := some "a.txt" })
      "git" (MaybeArgs.opts { memoize := some true }) none (by decide)⟩

/-- Claim C9 counterexample: length collides with an intrinsic property of the
callable (its own length, which is 0 because _fn declares only a rest
parameter), yet accessing it does not return the intrinsic value as-is: the
falsy 0 fails the truthiness guard, so "length" is appended to the pending
token list and the proxy is returned. -/
theorem C9_length_is_appended_not_returned :
    fnProps "length" = some (JsVal.num 0) ∧
    wrapGet (some []) "length" = (some ["length"], GetRet.chained) := by
  decide

/-- Claim C9 amended: a property name whose value on the callable is truthy
(such as name, or the inherited function members) is returned as-is and leaves
the pending token list untouched; a colliding name whose intrinsic value is
falsy, such as length (value 0), is appended as an argument token like any
unknown name. -/
theorem C9_truthy_intrinsics_returned_as_is
    (s : Option (List String)) (p : String) (v : JsVal)
    (hp : fnProps p = some v) (hv : jsTruthyVal v = true) :
    wrapGet s p = (s, GetRet.val v) := by
  unfold wrapGet
  rw [hp]
  simp [hv]

/-- Claim C9 amended, witnessed at the name property. -/
theorem C9_truthy_intrinsics_returned_as_is_witness :
    fnProps "name" = some (JsVal.str "_fn") ∧
    jsTruthyVal (JsVal.str "_fn") = true ∧
    wrapGet (some []) "name" = (some [], GetRet.val (JsVal.str "_fn")) :=
  ⟨by decide, by decide,
    C9_truthy_intrinsics_returned_as_is (some []) "name" (JsVal.str "_fn")
      (by decide) (by decide)⟩

end Execr
